import Mathlib

/-!
Verification of the overscroll stretch coordinate transform in
`libs/renderengine/skia/filters/StretchShaderFactory.cpp`.

The SkSL shader string embedded in that file is a pure numeric function: it
remaps a normalized coordinate per axis according to a three-region piecewise
policy driven by the sign of the overscroll, using a rational easing function
near the pulled edge.  `createSkShader` derives the shader's scalar uniforms
from a `StretchEffect` description.

The embedding below models the single-precision float arithmetic of the
shader with exact rational arithmetic (ℚ); every definition mirrors the
corresponding SkSL or C++ function line by line.  Division in ℚ is total
(`x / 0 = 0`), matching the fact that the shader performs an unguarded
division; the safety theorem shows the denominator is bounded away from zero
in the reachable region.
-/

namespace StretchShader

/-- SkSL `easeIn(t, d) = t * d`. -/
def easeIn (t d : ℚ) : ℚ := t * d

/-- GLSL/SkSL `mix(x, y, a) = x*(1-a) + y*a`, the linear blend used by the
easing functions. -/
def mix (x y a : ℚ) : ℚ := x * (1 - a) + y * a

/-- SkSL `computeOverscrollStart`: the rational easing transform applied near
the start edge when `overscroll > 0` and `inPos <= uStretchAffectedDist`. -/
def computeOverscrollStart (inPos overscroll uStretchAffectedDist
    uInverseStretchAffectedDist distanceStretched interpolationStrength : ℚ) : ℚ :=
  let offsetPos := uStretchAffectedDist - inPos
  let posBasedVariation :=
    mix 1 (easeIn offsetPos uInverseStretchAffectedDist) interpolationStrength
  let stretchIntensity := overscroll * posBasedVariation
  distanceStretched - (offsetPos / (1 + stretchIntensity))

/-- SkSL `computeOverscrollEnd`: the mirrored easing transform applied near
the end edge when `overscroll < 0` and `inPos >= reverseStretchDist`. -/
def computeOverscrollEnd (inPos overscroll reverseStretchDist uStretchAffectedDist
    uInverseStretchAffectedDist distanceStretched interpolationStrength : ℚ) : ℚ :=
  let offsetPos := inPos - reverseStretchDist
  let posBasedVariation :=
    mix 1 (easeIn offsetPos uInverseStretchAffectedDist) interpolationStrength
  let stretchIntensity := (-overscroll) * posBasedVariation
  1 - (distanceStretched - (offsetPos / (1 + stretchIntensity)))

/-- SkSL `computeOverscroll`: the per-axis piecewise remapping.  For
`overscroll > 0` it splits the axis at `uStretchAffectedDist` and
`distanceStretched`; for `overscroll < 0` it splits at
`1 - uStretchAffectedDist`; for `overscroll == 0` both blocks are skipped. -/
def computeOverscroll (inPos overscroll uStretchAffectedDist
    uInverseStretchAffectedDist distanceStretched distanceDiff
    interpolationStrength : ℚ) : ℚ :=
  let outPos := inPos
  let outPos :=
    if overscroll > 0 then
      if inPos ≤ uStretchAffectedDist then
        computeOverscrollStart inPos overscroll uStretchAffectedDist
          uInverseStretchAffectedDist distanceStretched interpolationStrength
      else if inPos ≥ distanceStretched then
        distanceDiff + inPos
      else outPos
    else outPos
  let outPos :=
    if overscroll < 0 then
      let stretchAffectedDist := 1 - uStretchAffectedDist
      if inPos ≥ stretchAffectedDist then
        computeOverscrollEnd inPos overscroll stretchAffectedDist
          uStretchAffectedDist uInverseStretchAffectedDist distanceStretched
          interpolationStrength
      else if inPos < stretchAffectedDist then
        -distanceDiff + inPos
      else outPos
    else outPos
  outPos

/-- The scalar uniforms bound by `createSkShader` and read by the shader's
`main` (the child texture is external and not part of the numeric core). -/
structure Uniforms where
  uStretchAffectedDistX : ℚ
  uStretchAffectedDistY : ℚ
  uDistanceStretchedX : ℚ
  uDistanceStretchedY : ℚ
  uInverseDistanceStretchedX : ℚ
  uInverseDistanceStretchedY : ℚ
  uDistDiffX : ℚ
  uDistDiffY : ℚ
  uScrollX : ℚ
  uScrollY : ℚ
  uOverscrollX : ℚ
  uOverscrollY : ℚ
  viewportWidth : ℚ
  viewportHeight : ℚ
  uInterpolationStrength : ℚ
  deriving Repr, DecidableEq

/-- SkSL `main`, up to the final texture sample: it returns the remapped
pixel coordinate at which `uContentTexture` is evaluated. -/
def shaderMain (u : Uniforms) (coordX coordY : ℚ) : ℚ × ℚ :=
  let inU := coordX / u.viewportWidth
  let inV := coordY / u.viewportHeight
  let inU := inU + u.uScrollX
  let inV := inV + u.uScrollY
  let outU := computeOverscroll inU u.uOverscrollX u.uStretchAffectedDistX
    u.uInverseDistanceStretchedX u.uDistanceStretchedX u.uDistDiffX
    u.uInterpolationStrength
  let outV := computeOverscroll inV u.uOverscrollY u.uStretchAffectedDistY
    u.uInverseDistanceStretchedY u.uDistanceStretchedY u.uDistDiffY
    u.uInterpolationStrength
  ((outU - u.uScrollX) * u.viewportWidth, (outV - u.uScrollY) * u.viewportHeight)

/-- The `StretchEffect` fields read by `createSkShader`.  The struct itself is
declared outside this file (in `ui/StretchEffect.h`); these are exactly the
fields the factory consumes. -/
structure StretchEffect where
  width : ℚ
  height : ℚ
  vectorX : ℚ
  vectorY : ℚ
  mappedChildBoundsLeft : ℚ
  mappedChildBoundsTop : ℚ
  deriving Repr, DecidableEq

/-- Modelled from the spec: `StretchEffect::hasEffect()` is declared outside
this file; the spec states the invariant "`hasEffect()` is true iff at least
one of `vectorX`/`vectorY` is non-zero". -/
def hasEffect (e : StretchEffect) : Bool :=
  decide (e.vectorX ≠ 0 ∨ e.vectorY ≠ 0)

/-- C++ `const float INTERPOLATION_STRENGTH_VALUE = 0.7f`. -/
def INTERPOLATION_STRENGTH_VALUE : ℚ := 7 / 10

/-- C++ `StretchShaderFactory::createSkShader`, parameter-derivation part.
`cds` stands for `StretchEffect::CONTENT_DISTANCE_STRETCHED`, a class constant
declared outside this file; the spec describes it only as a fixed positive
design constant, so it is kept as an explicit parameter (modelled from the
spec).  Returns `none` where the C++ returns `nullptr`, else the uniform set
bound on the shader builder. -/
def createSkShader (cds : ℚ) (e : StretchEffect) : Option Uniforms :=
  if hasEffect e = false then
    none
  else
    let viewportWidth := e.width
    let viewportHeight := e.height
    let normOverScrollDistX := e.vectorX
    let normOverScrollDistY := e.vectorY
    let distanceStretchedX := cds / (1 + |normOverScrollDistX|)
    let distanceStretchedY := cds / (1 + |normOverScrollDistY|)
    let inverseDistanceStretchedX := 1 / cds
    let inverseDistanceStretchedY := 1 / cds
    let diffX := distanceStretchedX - cds
    let diffY := distanceStretchedY - cds
    let normalizedScrollX := e.mappedChildBoundsLeft / viewportWidth
    let normalizedScrollY := e.mappedChildBoundsTop / viewportHeight
    some {
      uStretchAffectedDistX := cds
      uStretchAffectedDistY := cds
      uDistanceStretchedX := distanceStretchedX
      uDistanceStretchedY := distanceStretchedY
      uInverseDistanceStretchedX := inverseDistanceStretchedX
      uInverseDistanceStretchedY := inverseDistanceStretchedY
      uDistDiffX := diffX
      uDistDiffY := diffY
      uScrollX := normalizedScrollX
      uScrollY := normalizedScrollY
      uOverscrollX := normOverScrollDistX
      uOverscrollY := normOverScrollDistY
      viewportWidth := viewportWidth
      viewportHeight := viewportHeight
      uInterpolationStrength := INTERPOLATION_STRENGTH_VALUE }

/-- The whole system: derive the uniforms from the effect and remap a pixel
coordinate; when `createSkShader` produces no shader the backend falls back to
pass-through, so the coordinate is returned unmodified. -/
def applyStretch (cds : ℚ) (e : StretchEffect) (coordX coordY : ℚ) : ℚ × ℚ :=
  match createSkShader cds e with
  | none => (coordX, coordY)
  | some u => shaderMain u coordX coordY

/-- The spec's linear interpolation `lerp(a, b, t) = a + (b - a)*t`, written
from the spec's words for comparison with the shader's `mix`-based easing. -/
def lerp (a b t : ℚ) : ℚ := a + (b - a) * t

/-- The spec's formula for the start-edge easing output, written from the
spec's words: `outPos = distanceStretched - offsetPos / (1 + overscroll *
lerp(1.0, offsetPos * invAffectedDist, interpolationStrength))` with
`offsetPos = affectedDist - inPos`. -/
def specStartOutPos (inPos overscroll affectedDist invAffectedDist
    distanceStretched interpolationStrength : ℚ) : ℚ :=
  let offsetPos := affectedDist - inPos
  distanceStretched -
    offsetPos /
      (1 + overscroll * lerp 1 (offsetPos * invAffectedDist) interpolationStrength)

/-- The spec's formula for the end-edge easing output, written from the
spec's words: with `reverseStretchDist = 1 - affectedDist` and
`offsetPos = inPos - reverseStretchDist`, `outPos = 1 - (distanceStretched -
offsetPos / (1 + (-overscroll) * lerp(1.0, offsetPos * invAffectedDist,
interpolationStrength)))`. -/
def specEndOutPos (inPos overscroll affectedDist invAffectedDist
    distanceStretched interpolationStrength : ℚ) : ℚ :=
  let reverseStretchDist := 1 - affectedDist
  let offsetPos := inPos - reverseStretchDist
  1 - (distanceStretched -
    offsetPos /
      (1 + (-overscroll) * lerp 1 (offsetPos * invAffectedDist) interpolationStrength))

/-- Branch lemma: for positive overscroll inside the affected band,
`computeOverscroll` takes the start-easing branch. -/
lemma overscroll_pos_start (inPos v aD inv ds dd s : ℚ) (hv : 0 < v)
    (h1 : inPos ≤ aD) :
    computeOverscroll inPos v aD inv ds dd s
      = computeOverscrollStart inPos v aD inv ds s := by
  simp [computeOverscroll, hv, not_lt.mpr hv.le, h1]

/-- Branch lemma: for positive overscroll past both thresholds,
`computeOverscroll` takes the constant-shift branch. -/
lemma overscroll_pos_shift (inPos v aD inv ds dd s : ℚ) (hv : 0 < v)
    (h1 : aD < inPos) (h2 : ds ≤ inPos) :
    computeOverscroll inPos v aD inv ds dd s = dd + inPos := by
  simp [computeOverscroll, hv, not_lt.mpr hv.le, not_le.mpr h1, ge_iff_le, h2]

/-- Branch lemma: for positive overscroll strictly between the thresholds,
`computeOverscroll` is the identity. -/
lemma overscroll_pos_mid (inPos v aD inv ds dd s : ℚ) (hv : 0 < v)
    (h1 : aD < inPos) (h2 : inPos < ds) :
    computeOverscroll inPos v aD inv ds dd s = inPos := by
  simp [computeOverscroll, hv, not_lt.mpr hv.le, not_le.mpr h1, ge_iff_le,
    not_le.mpr h2]

/-- Branch lemma: for negative overscroll at or past `1 - affectedDist`,
`computeOverscroll` takes the end-easing branch. -/
lemma overscroll_neg_end (inPos v aD inv ds dd s : ℚ) (hv : v < 0)
    (h1 : 1 - aD ≤ inPos) :
    computeOverscroll inPos v aD inv ds dd s
      = computeOverscrollEnd inPos v (1 - aD) aD inv ds s := by
  simp [computeOverscroll, hv, not_lt.mpr hv.le, ge_iff_le, h1]

/-- Branch lemma: for negative overscroll below `1 - affectedDist`,
`computeOverscroll` takes the negated constant-shift branch. -/
lemma overscroll_neg_shift (inPos v aD inv ds dd s : ℚ) (hv : v < 0)
    (h1 : inPos < 1 - aD) :
    computeOverscroll inPos v aD inv ds dd s = -dd + inPos := by
  simp [computeOverscroll, hv, not_lt.mpr hv.le, ge_iff_le, not_le.mpr h1, h1]

/-- Mirror identity between the two easing functions: evaluating the end
easing at the reflected input with negated overscroll reflects the start
easing's output. -/
lemma start_end_mirror (p v aD inv ds s : ℚ) :
    computeOverscrollEnd (1 - p) (-v) (1 - aD) aD inv ds s
      = 1 - computeOverscrollStart p v aD inv ds s := by
  simp only [computeOverscrollEnd, computeOverscrollStart, mix, easeIn]
  ring

/-- Claim C6: if `overscroll == 0` on an axis then `computeOverscroll`
returns `inPos` unchanged for that axis — both region blocks are skipped. -/
theorem c6_zero_overscroll_identity (inPos v aD inv ds dd s : ℚ) (hv : v = 0) :
    computeOverscroll inPos v aD inv ds dd s = inPos := by
  subst hv
  simp [computeOverscroll]

/-- Claim C6, witness at a concrete input. -/
theorem c6_zero_overscroll_identity_witness :
    computeOverscroll (1/4) 0 (3/10) (10/3) (1/5) (-1/10) (7/10) = 1/4 :=
  c6_zero_overscroll_identity (1/4) 0 (3/10) (10/3) (1/5) (-1/10) (7/10) rfl

/-- Claim C1: for `overscroll > 0`, `computeOverscroll` applies the start
easing transform whenever `inPos ≤ affectedDist`; for `inPos > affectedDist`
it returns `distanceDiff + inPos` whenever `inPos ≥ distanceStretched`, and
`inPos` unchanged when `affectedDist < inPos < distanceStretched`; when both
region conditions hold (`distanceStretched ≤ inPos ≤ affectedDist`) the
easing branch takes priority. -/
theorem c1_piecewise_regions (inPos v aD inv ds dd s : ℚ) (hv : 0 < v) :
    (inPos ≤ aD →
      computeOverscroll inPos v aD inv ds dd s
        = computeOverscrollStart inPos v aD inv ds s) ∧
    (aD < inPos → ds ≤ inPos →
      computeOverscroll inPos v aD inv ds dd s = dd + inPos) ∧
    (aD < inPos → inPos < ds →
      computeOverscroll inPos v aD inv ds dd s = inPos) ∧
    (ds ≤ inPos → inPos ≤ aD →
      computeOverscroll inPos v aD inv ds dd s
        = computeOverscrollStart inPos v aD inv ds s) := by
  have hnneg : ¬ v < 0 := not_lt.mpr hv.le
  refine ⟨fun h1 => ?_, fun h1 h2 => ?_, fun h1 h2 => ?_, fun h1 h2 => ?_⟩
  · simp [computeOverscroll, hv, hnneg, h1]
  · simp [computeOverscroll, hv, hnneg, not_le.mpr h1, ge_iff_le, h2]
  · simp [computeOverscroll, hv, hnneg, not_le.mpr h1, ge_iff_le, not_le.mpr h2]
  · simp [computeOverscroll, hv, hnneg, h2]

/-- Claim C1, witness: concrete instances of all four region facts
(overscroll `1/2`, affected distance `3/10`, stretched distance `1/5`). -/
theorem c1_piecewise_regions_witness :
    computeOverscroll (1/10) (1/2) (3/10) (10/3) (1/5) (-1/10) (7/10)
      = computeOverscrollStart (1/10) (1/2) (3/10) (10/3) (1/5) (7/10) ∧
    computeOverscroll (1/2) (1/2) (3/10) (10/3) (1/5) (-1/10) (7/10)
      = -1/10 + 1/2 ∧
    computeOverscroll (7/20) (1/2) (3/10) (10/3) (2/5) (-1/10) (7/10) = 7/20 := by
  refine ⟨?_, ?_, ?_⟩
  · exact (c1_piecewise_regions (1/10) (1/2) (3/10) (10/3) (1/5) (-1/10) (7/10)
      (by norm_num)).1 (by norm_num)
  · exact (c1_piecewise_regions (1/2) (1/2) (3/10) (10/3) (1/5) (-1/10) (7/10)
      (by norm_num)).2.1 (by norm_num) (by norm_num)
  · exact (c1_piecewise_regions (7/20) (1/2) (3/10) (10/3) (2/5) (-1/10) (7/10)
      (by norm_num)).2.2.1 (by norm_num) (by norm_num)

/-- Claim C2: in the easing branches, `computeOverscroll` computes exactly
the spec's rational easing formulas — for `overscroll > 0` and
`inPos ≤ affectedDist` the start formula, and for `overscroll < 0` and
`inPos ≥ 1 - affectedDist` the mirrored end formula. -/
theorem c2_easing_formulas (inPos v aD inv ds dd s : ℚ) :
    (0 < v → inPos ≤ aD →
      computeOverscroll inPos v aD inv ds dd s
        = specStartOutPos inPos v aD inv ds s) ∧
    (v < 0 → 1 - aD ≤ inPos →
      computeOverscroll inPos v aD inv ds dd s
        = specEndOutPos inPos v aD inv ds s) := by
  constructor
  · intro hv h1
    have hnneg : ¬ v < 0 := not_lt.mpr hv.le
    simp only [computeOverscroll, if_pos hv, if_pos h1, if_neg hnneg]
    simp only [computeOverscrollStart, specStartOutPos, mix, easeIn, lerp]
    ring
  · intro hv h1
    have hnpos : ¬ v > 0 := not_lt.mpr hv.le
    simp only [computeOverscroll, if_neg hnpos, if_pos hv, if_pos (ge_iff_le.mpr h1)]
    simp only [computeOverscrollEnd, specEndOutPos, mix, easeIn, lerp]
    ring

/-- Claim C2, witness: both easing formulas at concrete inputs. -/
theorem c2_easing_formulas_witness :
    computeOverscroll (1/10) (1/2) (3/10) (10/3) (1/5) (-1/10) (7/10)
      = specStartOutPos (1/10) (1/2) (3/10) (10/3) (1/5) (7/10) ∧
    computeOverscroll (4/5) (-1/2) (3/10) (10/3) (1/5) (-1/10) (7/10)
      = specEndOutPos (4/5) (-1/2) (3/10) (10/3) (1/5) (7/10) := by
  constructor
  · exact (c2_easing_formulas (1/10) (1/2) (3/10) (10/3) (1/5) (-1/10) (7/10)).1
      (by norm_num) (by norm_num)
  · exact (c2_easing_formulas (4/5) (-1/2) (3/10) (10/3) (1/5) (-1/10) (7/10)).2
      (by norm_num) (by norm_num)

/-- Claim C3: with parameters derived as in `createSkShader`
(`aD = cds`, `inv = 1/cds`, `ds = cds/(1+|v|)`, `dd = ds - cds`) and
`overscroll > 0`, the easing branch at `inPos = affectedDist` and the shift
branch's value `distanceDiff + affectedDist` agree exactly, both equal to
`distanceStretched`. -/
theorem c3_boundary_continuity (cds v s aD inv ds dd : ℚ)
    (hv : 0 < v) (haD : aD = cds) (hinv : inv = 1 / cds)
    (hds : ds = cds / (1 + |v|)) (hdd : dd = ds - cds) :
    computeOverscrollStart aD v aD inv ds s = ds ∧
    dd + aD = ds ∧
    computeOverscroll aD v aD inv ds dd s = ds := by
  have h1 : computeOverscrollStart aD v aD inv ds s = ds := by
    simp [computeOverscrollStart, mix, easeIn]
  refine ⟨h1, by rw [hdd, haD]; ring, ?_⟩
  rw [overscroll_pos_start aD v aD inv ds dd s hv le_rfl, h1]

/-- Claim C3, witness: `cds = 3/10`, `v = 1/2`, derived
`ds = 1/5`, `dd = -1/10`. -/
theorem c3_boundary_continuity_witness :
    computeOverscrollStart (3/10) (1/2) (3/10) (10/3) (1/5) (7/10) = 1/5 ∧
    -1/10 + 3/10 = (1/5 : ℚ) ∧
    computeOverscroll (3/10) (1/2) (3/10) (10/3) (1/5) (-1/10) (7/10) = 1/5 :=
  c3_boundary_continuity (3/10) (1/2) (7/10) (3/10) (10/3) (1/5) (-1/10)
    (by norm_num) (by norm_num) (by norm_num) (by norm_num [abs_of_pos])
    (by norm_num)

/-- Claim C4, counterexample: with a parameter set where `distanceStretched >
affectedDist` and `distanceDiff ≠ 0` (`aD = 1/5`, `ds = 1/2`, `dd = 1/10`,
`v = 1`, `p = 3/10`), the positive branch leaves `p` in its identity middle
region while the mirrored negative branch applies the constant shift, so
`computeOverscroll p v … ≠ 1 - computeOverscroll (1-p) (-v) …`. -/
theorem c4_mirror_symmetry_counterexample :
    computeOverscroll (3/10) 1 (2/10) 5 (5/10) (1/10) (7/10)
      ≠ 1 - computeOverscroll (1 - 3/10) (-1) (2/10) 5 (5/10) (1/10) (7/10) := by
  norm_num [computeOverscroll, computeOverscrollStart, computeOverscrollEnd,
    mix, easeIn]

/-- Claim C4 (amended): for every parameter set with
`distanceStretched ≤ affectedDist` — as holds for all parameters produced by
the factory's derivation — the start-edge and end-edge transforms are mirror
images: `computeOverscroll p v … = 1 - computeOverscroll (1-p) (-v) …`. -/
theorem c4_mirror_symmetry (p v aD inv ds dd s : ℚ) (hds : ds ≤ aD) :
    computeOverscroll p v aD inv ds dd s
      = 1 - computeOverscroll (1 - p) (-v) aD inv ds dd s := by
  rcases lt_trichotomy v 0 with hv | hv | hv
  · have hv' : 0 < -v := neg_pos.mpr hv
    by_cases hp : 1 - aD ≤ p
    · rw [overscroll_neg_end p v aD inv ds dd s hv hp,
        overscroll_pos_start (1 - p) (-v) aD inv ds dd s hv' (by linarith)]
      have hm := start_end_mirror (1 - p) (-v) aD inv ds s
      simp only [sub_sub_cancel, neg_neg] at hm
      exact hm
    · push_neg at hp
      rw [overscroll_neg_shift p v aD inv ds dd s hv hp,
        overscroll_pos_shift (1 - p) (-v) aD inv ds dd s hv' (by linarith)
          (by linarith)]
      ring
  · subst hv
    simp only [neg_zero]
    norm_num [computeOverscroll]
  · have hv' : -v < 0 := neg_lt_zero.mpr hv
    by_cases hp : p ≤ aD
    · rw [overscroll_pos_start p v aD inv ds dd s hv hp,
        overscroll_neg_end (1 - p) (-v) aD inv ds dd s hv' (by linarith),
        start_end_mirror p v aD inv ds s]
      ring
    · push_neg at hp
      rw [overscroll_pos_shift p v aD inv ds dd s hv hp (by linarith),
        overscroll_neg_shift (1 - p) (-v) aD inv ds dd s hv' (by linarith)]
      ring

/-- Claim C4 (amended), witness: derived-style parameters `aD = 3/10`,
`ds = 3/20`, `dd = -3/20`, `v = 1`, `p = 3/10`. -/
theorem c4_mirror_symmetry_witness :
    computeOverscroll (3/10) 1 (3/10) (10/3) (3/20) (-3/20) (7/10)
      = 1 - computeOverscroll (1 - 3/10) (-1) (3/10) (10/3) (3/20) (-3/20) (7/10) :=
  c4_mirror_symmetry (3/10) 1 (3/10) (10/3) (3/20) (-3/20) (7/10) (by norm_num)

/-- Closed form of the start easing: with `A = 1 + v*(1-s)` and
`B = v*s*inv`, the denominator `1 + stretchIntensity` is affine in the
offset `aD - inPos`. -/
lemma computeOverscrollStart_closed (inPos v aD inv ds s : ℚ) :
    computeOverscrollStart inPos v aD inv ds s
      = ds - (aD - inPos) / ((1 + v * (1 - s)) + (v * s * inv) * (aD - inPos)) := by
  simp only [computeOverscrollStart, mix, easeIn]
  ring

/-- Closed form of the end easing, mirrored. -/
lemma computeOverscrollEnd_closed (inPos v rsd aD inv ds s : ℚ) :
    computeOverscrollEnd inPos v rsd aD inv ds s
      = 1 - ds +
          (inPos - rsd) /
            ((1 + (-v) * (1 - s)) + ((-v) * s * inv) * (inPos - rsd)) := by
  simp only [computeOverscrollEnd, mix, easeIn]
  ring

/-- The rational compression `x ↦ x / (A + B*x)` is monotone on `x ≥ 0`
when `A ≥ 1` and `B ≥ 0`. -/
lemma rational_div_monotone (A B x y : ℚ) (hA : 1 ≤ A) (hB : 0 ≤ B)
    (hx : 0 ≤ x) (hxy : x ≤ y) :
    x / (A + B * x) ≤ y / (A + B * y) := by
  have hy : 0 ≤ y := hx.trans hxy
  have hA0 : (0 : ℚ) < A := lt_of_lt_of_le one_pos hA
  have hDx : 0 < A + B * x := add_pos_of_pos_of_nonneg hA0 (mul_nonneg hB hx)
  have hDy : 0 < A + B * y := add_pos_of_pos_of_nonneg hA0 (mul_nonneg hB hy)
  rw [div_le_div_iff hDx hDy]
  nlinarith [mul_le_mul_of_nonneg_left hxy hA0.le]

/-- Claim C5, counterexample: with `|v| = 1`, `s = 1` but a negative
`invAffectedDist = -1`, two inputs `-1 < 1/2` both inside the start region
(`inPos ≤ aD = 1`) map to `2 > -1`: the remap is not monotone for every
parameter set with only `|overscroll| ≤ 1` and `s ∈ [0,1]` assumed. -/
theorem c5_region_monotonicity_counterexample :
    (-1 : ℚ) < 1/2 ∧ |(1 : ℚ)| ≤ 1 ∧ (0 : ℚ) ≤ 1 ∧
    (-1 : ℚ) ≤ 1 ∧ (1/2 : ℚ) ≤ 1 ∧
    ¬ computeOverscroll (-1) 1 1 (-1) 0 0 1
        ≤ computeOverscroll (1/2) 1 1 (-1) 0 0 1 := by
  refine ⟨by norm_num, by norm_num, by norm_num, by norm_num, by norm_num, ?_⟩
  norm_num [computeOverscroll, computeOverscrollStart, mix, easeIn]

/-- Claim C5 (amended): with `|overscroll| ≤ 1`, `interpolationStrength ∈
[0,1]` and additionally `invAffectedDist ≥ 0` (as holds for derived
parameters, where it is `1/AFFECTED_DISTANCE > 0`), `computeOverscroll` is
monotone in `inPos` on each region of the piecewise split. -/
theorem c5_region_monotonicity (p1 p2 v aD inv ds dd s : ℚ)
    (hvabs : |v| ≤ 1) (hs0 : 0 ≤ s) (hs1 : s ≤ 1) (hinv : 0 ≤ inv)
    (hp : p1 < p2)
    (hregion :
      (0 < v ∧ p1 ≤ aD ∧ p2 ≤ aD) ∨
      (0 < v ∧ aD < p1 ∧ ds ≤ p1 ∧ aD < p2 ∧ ds ≤ p2) ∨
      (0 < v ∧ aD < p1 ∧ p1 < ds ∧ aD < p2 ∧ p2 < ds) ∨
      (v < 0 ∧ 1 - aD ≤ p1 ∧ 1 - aD ≤ p2) ∨
      (v < 0 ∧ p1 < 1 - aD ∧ p2 < 1 - aD) ∨
      v = 0) :
    computeOverscroll p1 v aD inv ds dd s
      ≤ computeOverscroll p2 v aD inv ds dd s := by
  rcases hregion with ⟨hv0, h1, h2⟩ | ⟨hv0, h1a, h1b, h2a, h2b⟩ |
    ⟨hv0, h1a, h1b, h2a, h2b⟩ | ⟨hv0, h1, h2⟩ | ⟨hv0, h1, h2⟩ | hv0
  · rw [overscroll_pos_start p1 v aD inv ds dd s hv0 h1,
      overscroll_pos_start p2 v aD inv ds dd s hv0 h2,
      computeOverscrollStart_closed, computeOverscrollStart_closed]
    have hvs : (0 : ℚ) ≤ v * (1 - s) := mul_nonneg hv0.le (by linarith)
    have hA : (1 : ℚ) ≤ 1 + v * (1 - s) := by linarith
    have hB : (0 : ℚ) ≤ v * s * inv := mul_nonneg (mul_nonneg hv0.le hs0) hinv
    have key := rational_div_monotone (1 + v * (1 - s)) (v * s * inv)
      (aD - p2) (aD - p1) hA hB (by linarith) (by linarith)
    linarith
  · rw [overscroll_pos_shift p1 v aD inv ds dd s hv0 h1a h1b,
      overscroll_pos_shift p2 v aD inv ds dd s hv0 h2a h2b]
    linarith
  · rw [overscroll_pos_mid p1 v aD inv ds dd s hv0 h1a h1b,
      overscroll_pos_mid p2 v aD inv ds dd s hv0 h2a h2b]
    exact hp.le
  · rw [overscroll_neg_end p1 v aD inv ds dd s hv0 h1,
      overscroll_neg_end p2 v aD inv ds dd s hv0 h2,
      computeOverscrollEnd_closed, computeOverscrollEnd_closed]
    have hvs : (0 : ℚ) ≤ (-v) * (1 - s) := mul_nonneg (by linarith) (by linarith)
    have hA : (1 : ℚ) ≤ 1 + (-v) * (1 - s) := by linarith
    have hB : (0 : ℚ) ≤ (-v) * s * inv :=
      mul_nonneg (mul_nonneg (by linarith) hs0) hinv
    have key := rational_div_monotone (1 + (-v) * (1 - s)) ((-v) * s * inv)
      (p1 - (1 - aD)) (p2 - (1 - aD)) hA hB (by linarith) (by linarith)
    linarith
  · rw [overscroll_neg_shift p1 v aD inv ds dd s hv0 h1,
      overscroll_neg_shift p2 v aD inv ds dd s hv0 h2]
    linarith
  · subst hv0
    simp only [computeOverscroll, lt_self_iff_false, if_false]
    exact hp.le

/-- Claim C5 (amended), witness: two inputs in the start easing region with
derived-style parameters. -/
theorem c5_region_monotonicity_witness :
    computeOverscroll (1/10) (1/2) (3/10) (10/3) (1/5) (-1/10) (7/10)
      ≤ computeOverscroll (1/5) (1/2) (3/10) (10/3) (1/5) (-1/10) (7/10) :=
  c5_region_monotonicity (1/10) (1/5) (1/2) (3/10) (10/3) (1/5) (-1/10) (7/10)
    (by rw [abs_le]; constructor <;> norm_num) (by norm_num) (by norm_num)
    (by norm_num) (by norm_num)
    (Or.inl ⟨by norm_num, by norm_num, by norm_num⟩)

/-- The `stretchIntensity` local of `computeOverscrollStart`, exposed so the
safety of its division can be stated. -/
def startStretchIntensity (inPos overscroll uStretchAffectedDist
    uInverseStretchAffectedDist interpolationStrength : ℚ) : ℚ :=
  let offsetPos := uStretchAffectedDist - inPos
  overscroll *
    mix 1 (easeIn offsetPos uInverseStretchAffectedDist) interpolationStrength

/-- The `stretchIntensity` local of `computeOverscrollEnd`, exposed so the
safety of its division can be stated. -/
def endStretchIntensity (inPos overscroll reverseStretchDist
    uInverseStretchAffectedDist interpolationStrength : ℚ) : ℚ :=
  let offsetPos := inPos - reverseStretchDist
  (-overscroll) *
    mix 1 (easeIn offsetPos uInverseStretchAffectedDist) interpolationStrength

/-- Claim C7: for every effect with `hasEffect() = true`, the derivation in
`createSkShader` computes per axis exactly `distanceStretched =
cds/(1+|overscroll|)`, `inverseDistanceStretched = 1/cds` (from the constant,
not the per-axis stretched distance), `diff = distanceStretched - cds`, and
`scroll = mappedChildBounds.left/width` (resp. `top/height`). -/
theorem c7_parameter_derivation (cds : ℚ) (e : StretchEffect)
    (h : hasEffect e = true) :
    ∃ u : Uniforms, createSkShader cds e = some u ∧
      u.uDistanceStretchedX = cds / (1 + |e.vectorX|) ∧
      u.uDistanceStretchedY = cds / (1 + |e.vectorY|) ∧
      u.uInverseDistanceStretchedX = 1 / cds ∧
      u.uInverseDistanceStretchedY = 1 / cds ∧
      u.uDistDiffX = cds / (1 + |e.vectorX|) - cds ∧
      u.uDistDiffY = cds / (1 + |e.vectorY|) - cds ∧
      u.uScrollX = e.mappedChildBoundsLeft / e.width ∧
      u.uScrollY = e.mappedChildBoundsTop / e.height := by
  refine ⟨{
    uStretchAffectedDistX := cds
    uStretchAffectedDistY := cds
    uDistanceStretchedX := cds / (1 + |e.vectorX|)
    uDistanceStretchedY := cds / (1 + |e.vectorY|)
    uInverseDistanceStretchedX := 1 / cds
    uInverseDistanceStretchedY := 1 / cds
    uDistDiffX := cds / (1 + |e.vectorX|) - cds
    uDistDiffY := cds / (1 + |e.vectorY|) - cds
    uScrollX := e.mappedChildBoundsLeft / e.width
    uScrollY := e.mappedChildBoundsTop / e.height
    uOverscrollX := e.vectorX
    uOverscrollY := e.vectorY
    viewportWidth := e.width
    viewportHeight := e.height
    uInterpolationStrength := INTERPOLATION_STRENGTH_VALUE },
    ?_, rfl, rfl, rfl, rfl, rfl, rfl, rfl, rfl⟩
  simp [createSkShader, h]

/-- Claim C7, witness: a concrete effect with `vectorX = 1/2`. -/
theorem c7_parameter_derivation_witness :
    ∃ u : Uniforms,
      createSkShader (3/10) ⟨100, 200, 1/2, 0, 5, 8⟩ = some u ∧
      u.uDistanceStretchedX = 3/10 / (1 + |(1 : ℚ)/2|) ∧
      u.uDistanceStretchedY = 3/10 / (1 + |(0 : ℚ)|) ∧
      u.uInverseDistanceStretchedX = 1 / (3/10) ∧
      u.uInverseDistanceStretchedY = 1 / (3/10) ∧
      u.uDistDiffX = 3/10 / (1 + |(1 : ℚ)/2|) - 3/10 ∧
      u.uDistDiffY = 3/10 / (1 + |(0 : ℚ)|) - 3/10 ∧
      u.uScrollX = 5 / 100 ∧
      u.uScrollY = 8 / 200 :=
  c7_parameter_derivation (3/10) ⟨100, 200, 1/2, 0, 5, 8⟩ (by norm_num [hasEffect])

/-- Claim C8: for every effect with `hasEffect() = false`, `createSkShader`
produces no shader and the whole system is a pass-through, returning the
unmodified input coordinate for all viewport sizes and scroll offsets. -/
theorem c8_no_effect_passthrough (cds : ℚ) (e : StretchEffect)
    (h : hasEffect e = false) (x y : ℚ) :
    createSkShader cds e = none ∧ applyStretch cds e x y = (x, y) := by
  have hnone : createSkShader cds e = none := by
    simp [createSkShader, h]
  exact ⟨hnone, by simp [applyStretch, hnone]⟩

/-- Claim C8, witness: a zero stretch vector on both axes. -/
theorem c8_no_effect_passthrough_witness :
    createSkShader (3/10) ⟨100, 200, 0, 0, 5, 8⟩ = none ∧
    applyStretch (3/10) ⟨100, 200, 0, 0, 5, 8⟩ 7 9 = (7, 9) :=
  c8_no_effect_passthrough (3/10) ⟨100, 200, 0, 0, 5, 8⟩ (by norm_num [hasEffect]) 7 9

/-- Claim C9: with derived parameters (`aD = cds > 0`, `inv = 1/cds`),
`|overscroll| ≤ 1`, `interpolationStrength ∈ [0,1]` and `inPos ∈ [0,1]`
satisfying the region condition of the selected easing branch, the easing
denominator `1 + stretchIntensity` is at least `1`, so the division by it is
well-defined (the singularity `1 + stretchIntensity = 0` is unreachable);
moreover the easing outputs are exactly `ds - offsetPos / (1 +
stretchIntensity)` with that denominator. -/
theorem c9_denominator_safe (cds v s inPos ds : ℚ)
    (hcds : 0 < cds) (hvabs : |v| ≤ 1) (hs0 : 0 ≤ s) (hs1 : s ≤ 1)
    (h0 : 0 ≤ inPos) (h1 : inPos ≤ 1) :
    (0 < v → inPos ≤ cds →
      1 ≤ 1 + startStretchIntensity inPos v cds (1 / cds) s ∧
      computeOverscrollStart inPos v cds (1 / cds) ds s
        = ds - (cds - inPos) / (1 + startStretchIntensity inPos v cds (1 / cds) s)) ∧
    (v < 0 → 1 - cds ≤ inPos →
      1 ≤ 1 + endStretchIntensity inPos v (1 - cds) (1 / cds) s ∧
      computeOverscrollEnd inPos v (1 - cds) cds (1 / cds) ds s
        = 1 - (ds - (inPos - (1 - cds)) /
            (1 + endStretchIntensity inPos v (1 - cds) (1 / cds) s))) := by
  constructor
  · intro hv hband
    constructor
    · have hoff : 0 ≤ (cds - inPos) * (1 / cds) := by
        apply mul_nonneg (by linarith)
        positivity
      have hpbv : 0 ≤ mix 1 (easeIn (cds - inPos) (1 / cds)) s := by
        simp only [mix, easeIn]
        nlinarith
      have : 0 ≤ startStretchIntensity inPos v cds (1 / cds) s :=
        mul_nonneg hv.le hpbv
      linarith
    · simp only [computeOverscrollStart, startStretchIntensity]
  · intro hv hband
    constructor
    · have hoff : 0 ≤ (inPos - (1 - cds)) * (1 / cds) := by
        apply mul_nonneg (by linarith)
        positivity
      have hpbv : 0 ≤ mix 1 (easeIn (inPos - (1 - cds)) (1 / cds)) s := by
        simp only [mix, easeIn]
        nlinarith
      have : 0 ≤ endStretchIntensity inPos v (1 - cds) (1 / cds) s :=
        mul_nonneg (by linarith) hpbv
      linarith
    · simp only [computeOverscrollEnd, endStretchIntensity]

/-- Claim C9, witness: `cds = 3/10`, `v = 1/2`, `inPos = 1/10` for the start
branch. -/
theorem c9_denominator_safe_witness :
    1 ≤ 1 + startStretchIntensity (1/10) (1/2) (3/10) (1 / (3/10)) (7/10) ∧
    computeOverscrollStart (1/10) (1/2) (3/10) (1 / (3/10)) (1/5) (7/10)
      = 1/5 - (3/10 - 1/10) /
          (1 + startStretchIntensity (1/10) (1/2) (3/10) (1 / (3/10)) (7/10)) :=
  (c9_denominator_safe (3/10) (1/2) (7/10) (1/10) (1/5) (by norm_num)
      (by rw [abs_le]; constructor <;> norm_num) (by norm_num) (by norm_num)
      (by norm_num) (by norm_num)).1
    (by norm_num) (by norm_num)

/-- Claim C10: the axes do not interfere — the remapped x coordinate of
`shaderMain` depends only on `coord.x`, `viewportWidth`, `uScrollX`,
`uOverscrollX`, the X-axis transform parameters and
`uInterpolationStrength`: changing every Y-axis input leaves it unchanged,
and symmetrically for the remapped y coordinate. -/
theorem c10_axis_noninterference
    (sADX dsX invX ddX scX ovX vw s x : ℚ)
    (sADY dsY invY ddY scY ovY vh y : ℚ)
    (sADY2 dsY2 invY2 ddY2 scY2 ovY2 vh2 y2 : ℚ)
    (sADX2 dsX2 invX2 ddX2 scX2 ovX2 vw2 x2 : ℚ) :
    (shaderMain
        ⟨sADX, sADY, dsX, dsY, invX, invY, ddX, ddY, scX, scY, ovX, ovY,
          vw, vh, s⟩ x y).1
      = (shaderMain
        ⟨sADX, sADY2, dsX, dsY2, invX, invY2, ddX, ddY2, scX, scY2, ovX,
          ovY2, vw, vh2, s⟩ x y2).1 ∧
    (shaderMain
        ⟨sADX, sADY, dsX, dsY, invX, invY, ddX, ddY, scX, scY, ovX, ovY,
          vw, vh, s⟩ x y).2
      = (shaderMain
        ⟨sADX2, sADY, dsX2, dsY, invX2, invY, ddX2, ddY, scX2, scY, ovX2,
          ovY, vw2, vh, s⟩ x2 y).2 :=
  ⟨rfl, rfl⟩

end StretchShader
